import Mathlib

/-!
# nomake launcher (`src/startup/nomake.cpp`)

A shallow embedding of the launcher: `utf8_to_wchar` and `main`.

* C strings are `String`s (the bytes before the terminating NUL); a `char *` /
  `wchar_t *` stored in an argument array is a `Slot`.
* Wide buffers are lists of UTF-16 code units, terminator included.
* Everything the program asks of the operating system or of the C/C++ runtime
  (`GetModuleFileNameW`, `fs::canonical`, `fs::exists`, `malloc`,
  `MultiByteToWideChar`, `_wspawnv`, `execv`) is a field of `Env`.
* The character buffers that `utf8_to_wchar` allocates are written through
  unchecked by the source; they are taken to be there, and a conversion that
  cannot fill its buffer is a failing `MultiByteToWideChar` call.
* `main` returns the list of observable events together with the way the
  process ended.
* `int` arithmetic on `nargv` never overflows (the argument count is bounded by
  the operating system far below `2^31`), so `Nat` is used for it.
-/

set_option autoImplicit false

namespace Nomake

/-! ## Pointers stored in an argument array -/

/-- One cell of a `malloc`-ed pointer array: not yet written, a null pointer,
or a pointer to a value. -/
inductive Slot (α : Type) where
  | uninit : Slot α
  | null : Slot α
  | ptr : α → Slot α
  deriving DecidableEq, Repr

/-- A wide-character buffer: its UTF-16 code units, terminator included. -/
abbrev WStr := List Nat

/-- A possibly-null result pointer stored into an array cell. -/
def Slot.ofOption {α : Type} : Option α → Slot α
  | none => Slot.null
  | some a => Slot.ptr a

/-- The cell `argv[i]` of the argument array handed to `main`: `argv[nargv]` is
a null pointer, cells beyond are not part of the array. -/
def argvAt (argv : List String) (i : Nat) : Slot String :=
  match argv[i]? with
  | some s => Slot.ptr s
  | none => if i = argv.length then Slot.null else Slot.uninit

/-- The argument vector a callee reads from an array: the cells before the
first cell that is not a valid pointer. -/
def argsBeforeNull {α : Type} : List (Slot α) → List α
  | Slot.ptr a :: rest => a :: argsBeforeNull rest
  | _ => []

/-! ## `std::filesystem::path`

A path value is kept in decomposed form, as `std::filesystem::path` iteration
presents it: the root part (root-name and root-directory, verbatim) and the
filename elements of the relative part.  A trailing directory separator shows
as a final empty element; no other element is empty. -/

/-- A `std::filesystem::path` in decomposed form. -/
structure Path where
  root : String
  elems : List String
  deriving DecidableEq, Repr

/-- Elements of a decomposed path: only the last one may be empty. -/
def Path.WellFormed (p : Path) : Prop :=
  ∀ e ∈ p.elems.dropLast, e ≠ ""

/-- The member `path::filename()`: the last element, empty when there is no
relative part. -/
def Path.filename (p : Path) : String :=
  p.elems.getLastD ""

/-- The member `path::has_filename()`. -/
def Path.has_filename (p : Path) : Bool :=
  p.filename != ""

/-- The member `path::parent_path()`: the path itself when it has no relative
part, otherwise the path with its last element removed. -/
def Path.parent_path (p : Path) : Path :=
  match p.elems with
  | [] => p
  | _ :: _ => { root := p.root, elems := p.elems.dropLast }

/-- The `operator/` of `path` applied to a single relative filename such as
`"deno"`: a separator is added when the left side has a filename, then the
name is appended. -/
def Path.append (p : Path) (name : String) : Path :=
  if p.has_filename then { root := p.root, elems := p.elems ++ [name] }
  else { root := p.root, elems := p.elems.dropLast ++ [name] }

/-- A filename without its `path::extension()`: `.` and `..` have none, a
leading period does not start one, otherwise it starts at the rightmost
period. -/
def stripExtension (f : List Char) : List Char :=
  if f = ['.'] ∨ f = ['.', '.'] then f
  else
    match f.reverse.dropWhile (fun c => c ≠ '.') with
    | [] => f
    | [_] => f
    | _ :: r => r.reverse

/-- The member `path::replace_extension(replacement)`: the extension of the
filename is removed, a period is added when the replacement is not empty and
does not begin with one, and the replacement is concatenated. -/
def Path.replace_extension (p : Path) (replacement : String) : Path :=
  let dot : List Char :=
    if replacement.data ≠ [] ∧ replacement.data.head? ≠ some '.' then ['.'] else []
  { root := p.root,
    elems := p.elems.dropLast ++
      [String.mk (stripExtension p.filename.data ++ dot ++ replacement.data)] }

/-- A pathname of a decomposed path: the root part followed by the elements
separated by `/`. -/
def Path.pathname (p : Path) : String :=
  p.root ++ "/".intercalate p.elems

/-! ## Environment, events, outcomes -/

/-- What one call `MultiByteToWideChar(CP_UTF8, 0, str, -1, wstr, len)` does:
the number it returns and the contents of `wstr` afterwards. -/
structure Conversion where
  written : Nat
  buffer : WStr
  deriving DecidableEq, Repr

/-- The operating system and runtime as seen by the program. -/
structure Env where
  /-- Whether `_WIN32` is defined. -/
  win32 : Bool
  /-- Return value of `GetModuleFileNameW(nullptr, buffer, MAX_PATH)`. -/
  GetModuleFileNameW : Nat
  /-- Contents of `buffer` after that call, read as a path. -/
  buffer : Path
  /-- Return value of `GetLastError()`. -/
  GetLastError : Nat
  /-- Result of `fs::canonical("/proc/self/exe")`; `none` when it throws. -/
  canonical : Option Path
  /-- Result of `fs::exists`; `none` when it throws. -/
  fs_exists : Path → Option Bool
  /-- Whether `malloc` of a pointer array with that many cells succeeds. -/
  malloc : Nat → Bool
  /-- Return value of `MultiByteToWideChar(CP_UTF8, 0, str, -1, NULL, 0)`. -/
  mbQuery : String → Nat
  /-- The call `MultiByteToWideChar(CP_UTF8, 0, str, -1, wstr, len)`. -/
  mbFill : String → Nat → Conversion
  /-- Return value of `_wspawnv(_P_WAIT, path, wargv)`. -/
  _wspawnv : Path → List (Slot WStr) → Int
  /-- Return value of `execv(path, argv)`; `none` when the image is replaced
  and the call never returns. -/
  execv : Path → List (Slot String) → Option Int

/-- A call of the OS conversion routine made by `utf8_to_wchar`. -/
inductive ConvCall where
  | query (str : String)
  | fill (str : String) (len : Nat)
  deriving DecidableEq, Repr

/-- Observable steps of `main`, in program order. -/
inductive Event where
  | stderr (line : String)
  | fsExists (p : Path)
  | malloc (cells : Nat)
  | spawn (p : Path) (wargv : List (Slot WStr))
  | exec (p : Path) (argv : List (Slot String))
  deriving DecidableEq, Repr

/-- How the process ends. -/
inductive Outcome where
  /-- The function `main` returns this value. -/
  | returned (code : Int)
  /-- The call of `execv` succeeded: the image was replaced. -/
  | replaced
  /-- An exception left `main`: `std::terminate` is called. -/
  | terminated
  /-- A null pointer was dereferenced. -/
  | undefined
  deriving DecidableEq, Repr

/-! ## `utf8_to_wchar` (lines 24-38) -/

/-- The function `utf8_to_wchar`, with the calls of `MultiByteToWideChar` it
makes; `none` is the null pointer it returns on failure. -/
def utf8_to_wchar_traced (env : Env) (str : String) : List ConvCall × Option WStr :=
  if str = "" then
    ([], some [0])
  else
    let len := env.mbQuery str
    if len = 0 then
      ([ConvCall.query str], none)
    else
      let c := env.mbFill str len
      if c.written = 0 then
        ([ConvCall.query str, ConvCall.fill str len], none)
      else
        ([ConvCall.query str, ConvCall.fill str len], some c.buffer)

/-- The pointer returned by `utf8_to_wchar`. -/
def utf8_to_wchar (env : Env) (str : String) : Option WStr :=
  (utf8_to_wchar_traced env str).2

/-! ## `main` (lines 41-116) -/

/-- The derived path `denoPath` (lines 59-65); `windows` is the guard of line
62 under `#ifdef _WIN32`. -/
def denoPath (windows : Bool) (curExePath : Path) : Path :=
  let p := curExePath.parent_path.append "deno"
  if windows then p.replace_extension ".exe" else p

/-- The loop `for (int i = 1; i < nargv; i++) arr[i + 3] = f(argv[i]);`, run
from index `i` over the remaining arguments. -/
def copyLoop {α : Type} (f : String → Slot α) :
    List String → Nat → List (Slot α) → List (Slot α)
  | [], _, arr => arr
  | s :: rest, i, arr => copyLoop f rest (i + 1) (arr.set (i + 3) (f s))

/-- The array `new_argv` after lines 93-105. -/
def new_argv (argv : List String) : List (Slot String) :=
  let nargv := argv.length
  let a := List.replicate (nargv + 4) (Slot.uninit : Slot String)
  let a := a.set 0 (argvAt argv 0)
  let a := a.set 1 (Slot.ptr "run")
  let a := a.set 2 (Slot.ptr "-A")
  let a := a.set 3 (Slot.ptr "build.ts")
  let a := copyLoop Slot.ptr (argv.drop 1) 1 a
  a.set (nargv + 3) Slot.null

/-- The array `wargv` after lines 75-87, for a non-null `argv[0]`. -/
def wargv (env : Env) (argv0 : String) (argv : List String) : List (Slot WStr) :=
  let nargv := argv.length
  let a := List.replicate (nargv + 4) (Slot.uninit : Slot WStr)
  let a := a.set 0 (Slot.ofOption (utf8_to_wchar env argv0))
  let a := a.set 1 (Slot.ofOption (utf8_to_wchar env "run"))
  let a := a.set 2 (Slot.ofOption (utf8_to_wchar env "-A"))
  let a := a.set 3 (Slot.ofOption (utf8_to_wchar env "build.ts"))
  let a := copyLoop (fun s => Slot.ofOption (utf8_to_wchar env s)) (argv.drop 1) 1 a
  a.set (nargv + 3) Slot.null

/-- The diagnostic of lines 49-50. -/
def pathErrorLine (err : Nat) : String :=
  "Failed to get current executable path, error code: " ++ toString err

/-- Lines 72-115: the launch, once `denoPath` is known to exist. -/
def launch (env : Env) (isWindows : Bool) (target : Path) (argv : List String) :
    List Event × Outcome :=
  let nargv := argv.length
  if env.win32 ∧ isWindows then
    if !env.malloc (nargv + 4) then
      ([Event.malloc (nargv + 4), Event.stderr "Failed to allocate memory"], Outcome.returned 1)
    else
      match argv[0]? with
      | none => ([Event.malloc (nargv + 4)], Outcome.undefined)
      | some argv0 =>
        let w := wargv env argv0 argv
        let ret := env._wspawnv target w
        ([Event.malloc (nargv + 4), Event.spawn target w], Outcome.returned ret)
  else if !env.malloc (nargv + 4) then
    ([Event.malloc (nargv + 4), Event.stderr "Failed to allocate memory"], Outcome.returned 1)
  else
    let v := new_argv argv
    if !env.win32 then
      match env.execv target v with
      | none => ([Event.malloc (nargv + 4), Event.exec target v], Outcome.replaced)
      | some ret => ([Event.malloc (nargv + 4), Event.exec target v], Outcome.returned ret)
    else
      ([Event.malloc (nargv + 4)], Outcome.returned 0)

/-- Lines 42-53: the diagnostic written when `GetModuleFileNameW` fails. -/
def selfPathDiagnostics (env : Env) : List Event :=
  if env.win32 ∧ env.GetModuleFileNameW = 0 then
    [Event.stderr (pathErrorLine env.GetLastError)]
  else []

/-- Lines 42-57: the value of `curExePath`, `none` when `fs::canonical`
throws. -/
def resolveSelf (env : Env) : Option Path :=
  let isWindows := env.win32
  let curExePath : Path := if env.win32 then env.buffer else { root := "", elems := [] }
  if !isWindows then env.canonical else some curExePath

/-- The function `main`. -/
def main (env : Env) (argv : List String) : List Event × Outcome :=
  let isWindows := env.win32
  let ev := selfPathDiagnostics env
  match resolveSelf env with
  | none => (ev, Outcome.terminated)
  | some curExePath =>
    let target := denoPath (env.win32 && isWindows) curExePath
    match env.fs_exists target with
    | none => (ev ++ [Event.fsExists target], Outcome.terminated)
    | some false =>
      (ev ++ [Event.fsExists target, Event.stderr "Failed to find deno executable"],
        Outcome.returned 1)
    | some true =>
      let r := launch env isWindows target argv
      (ev ++ [Event.fsExists target] ++ r.1, r.2)

/-! ## Concrete environments -/

/-- The element list of `/usr/local/bin/<name>`. -/
def binDir (name : String) : Path :=
  { root := "/", elems := ["usr", "local", "bin", name] }

/-- A POSIX system: the launcher is `/usr/local/bin/nomake`, `/usr/local/bin/deno`
exists, and `execv` fails with `-1`. -/
def posixEnv : Env :=
  { win32 := false
    GetModuleFileNameW := 0
    buffer := { root := "", elems := [] }
    GetLastError := 0
    canonical := some (binDir "nomake")
    fs_exists := fun p => some (decide (p = binDir "deno"))
    malloc := fun _ => true
    mbQuery := fun _ => 0
    mbFill := fun _ _ => { written := 0, buffer := [] }
    _wspawnv := fun _ _ => 0
    execv := fun _ _ => some (-1) }

/-- The POSIX system with no `deno` next to the launcher. -/
def posixEnvNoDeno : Env :=
  { posixEnv with fs_exists := fun _ => some false }

/-- The POSIX system where `/proc/self/exe` cannot be canonicalised. -/
def posixEnvNoSelf : Env :=
  { posixEnv with canonical := none }

/-- UTF-16 code units of a string of characters below `U+10000`, terminator
included. -/
def bmpWide (s : String) : WStr :=
  s.data.map Char.toNat ++ [0]

/-- The decomposed path `C:\tools\<name>`. -/
def toolsDir (name : String) : Path :=
  { root := "C:\\", elems := ["tools", name] }

/-- A Windows system: the launcher is `C:\tools\nomake.exe`,
`C:\tools\deno.exe` exists, strings convert one code unit per character, and
the child exits with status 42. -/
def winEnv : Env :=
  { win32 := true
    GetModuleFileNameW := 19
    buffer := toolsDir "nomake.exe"
    GetLastError := 0
    canonical := none
    fs_exists := fun p => some (decide (p = toolsDir "deno.exe"))
    malloc := fun _ => true
    mbQuery := fun s => s.length + 1
    mbFill := fun s len => { written := len, buffer := bmpWide s }
    _wspawnv := fun _ _ => 42
    execv := fun _ _ => none }

/-- The Windows system when `GetModuleFileNameW` fails with error 5 and leaves
`buffer` empty, with a `deno.exe` in the current directory. -/
def winEnvNoSelf : Env :=
  { winEnv with
    GetModuleFileNameW := 0
    GetLastError := 5
    buffer := { root := "", elems := [] }
    fs_exists := fun p => some (decide (p = { root := "", elems := ["deno.exe"] })) }

/-- The Windows system when the conversion of the string `"a"` fails: the
second call of `MultiByteToWideChar` reports 0 for it, as it does when it is
given no buffer. -/
def winEnvBadConv : Env :=
  { winEnv with
    mbFill := fun s len =>
      if s = "a" then { written := 0, buffer := [] } else { written := len, buffer := bmpWide s } }

/-- The Windows system when `_wspawnv` cannot create the child. -/
def winEnvNoSpawn : Env :=
  { winEnv with _wspawnv := fun _ _ => -1 }

end Nomake

/-! ## The argument arrays -/

namespace Nomake

theorem copyLoop_append {α : Type} (f : String → Slot α) :
    ∀ (rest : List String) (i : Nat) (pre junk : List (Slot α)),
      pre.length = i + 3 → rest.length ≤ junk.length →
      copyLoop f rest i (pre ++ junk) = pre ++ rest.map f ++ junk.drop rest.length := by
  intro rest
  induction rest with
  | nil => intro i pre junk _ _; simp [copyLoop]
  | cons s rest ih =>
    intro i pre junk hpre hlen
    cases junk with
    | nil => simp at hlen
    | cons j junk =>
      have hset : (pre ++ j :: junk).set (i + 3) (f s) = (pre ++ [f s]) ++ junk := by
        rw [← hpre]
        simp
      simp only [copyLoop, hset]
      rw [ih (i + 1) (pre ++ [f s]) junk (by simp [hpre]) (by simpa using hlen)]
      simp

/-- The shape of an argument array filled by lines 80-87 or 98-105. -/
theorem filled_array {α : Type} (f : String → Slot α) (e0 e1 e2 e3 : Slot α)
    (args : List String) :
    (copyLoop f args 1
      (((((List.replicate (args.length + 1 + 4) (Slot.uninit : Slot α)).set 0 e0).set 1 e1).set
        2 e2).set 3 e3)).set (args.length + 1 + 3) Slot.null
      = e0 :: e1 :: e2 :: e3 :: (args.map f ++ [Slot.null]) := by
  have h0 : ((((List.replicate (args.length + 1 + 4) (Slot.uninit : Slot α)).set 0 e0).set 1
      e1).set 2 e2).set 3 e3 = [e0, e1, e2, e3] ++ List.replicate (args.length + 1) Slot.uninit := by
    simp [List.replicate_succ]
  rw [h0, copyLoop_append f args 1 [e0, e1, e2, e3] _ (by simp) (by simp)]
  have h1 : ([e0, e1, e2, e3] ++ args.map f ++
      (List.replicate (args.length + 1) (Slot.uninit : Slot α)).drop args.length)
      = ([e0, e1, e2, e3] ++ args.map f) ++ [Slot.uninit] := by
    simp
  rw [h1]
  have h2 : args.length + 1 + 3 = ([e0, e1, e2, e3] ++ args.map f).length := by
    simp
  rw [h2, List.set_append_right _ _ (le_refl _)]
  simp

theorem new_argv_cons (prog : String) (args : List String) :
    new_argv (prog :: args)
      = Slot.ptr prog :: Slot.ptr "run" :: Slot.ptr "-A" :: Slot.ptr "build.ts" ::
          (args.map Slot.ptr ++ [Slot.null]) := by
  have h := filled_array Slot.ptr (Slot.ptr prog) (Slot.ptr "run") (Slot.ptr "-A")
    (Slot.ptr "build.ts") args
  simpa [new_argv, argvAt] using h

theorem wargv_cons (env : Env) (prog : String) (args : List String) :
    wargv env prog (prog :: args)
      = Slot.ofOption (utf8_to_wchar env prog) :: Slot.ofOption (utf8_to_wchar env "run") ::
          Slot.ofOption (utf8_to_wchar env "-A") ::
          Slot.ofOption (utf8_to_wchar env "build.ts") ::
          (args.map (fun s => Slot.ofOption (utf8_to_wchar env s)) ++ [Slot.null]) := by
  have h := filled_array (fun s => Slot.ofOption (utf8_to_wchar env s))
    (Slot.ofOption (utf8_to_wchar env prog)) (Slot.ofOption (utf8_to_wchar env "run"))
    (Slot.ofOption (utf8_to_wchar env "-A")) (Slot.ofOption (utf8_to_wchar env "build.ts")) args
  simpa [wargv] using h

theorem argsBeforeNull_map_ptr {α : Type} (l : List α) (rest : List (Slot α)) :
    argsBeforeNull (l.map Slot.ptr ++ Slot.null :: rest) = l := by
  induction l with
  | nil => simp [argsBeforeNull]
  | cons a l ih => simp [argsBeforeNull, ih]

/-! ## Control flow of `main` -/

theorem selfPathDiagnostics_stderr (env : Env) (e : Event) (h : e ∈ selfPathDiagnostics env) :
    e = Event.stderr (pathErrorLine env.GetLastError) := by
  unfold selfPathDiagnostics at h
  split at h <;> simp at h
  exact h

theorem selfPathDiagnostics_posix (env : Env) (hw : env.win32 = false) :
    selfPathDiagnostics env = [] := by
  simp [selfPathDiagnostics, hw]

theorem resolveSelf_posix (env : Env) (hw : env.win32 = false) :
    resolveSelf env = env.canonical := by
  simp [resolveSelf, hw]

theorem resolveSelf_win (env : Env) (hw : env.win32 = true) :
    resolveSelf env = some env.buffer := by
  simp [resolveSelf, hw]

/-- The function `main` on the branch without `_WIN32`. -/
theorem main_posix (env : Env) (argv : List String) (hw : env.win32 = false) :
    main env argv =
      match env.canonical with
      | none => ([], Outcome.terminated)
      | some cur =>
        match env.fs_exists (denoPath false cur) with
        | none => ([Event.fsExists (denoPath false cur)], Outcome.terminated)
        | some false =>
          ([Event.fsExists (denoPath false cur),
            Event.stderr "Failed to find deno executable"], Outcome.returned 1)
        | some true =>
          if env.malloc (argv.length + 4) = false then
            ([Event.fsExists (denoPath false cur), Event.malloc (argv.length + 4),
              Event.stderr "Failed to allocate memory"], Outcome.returned 1)
          else
            match env.execv (denoPath false cur) (new_argv argv) with
            | none =>
              ([Event.fsExists (denoPath false cur), Event.malloc (argv.length + 4),
                Event.exec (denoPath false cur) (new_argv argv)], Outcome.replaced)
            | some ret =>
              ([Event.fsExists (denoPath false cur), Event.malloc (argv.length + 4),
                Event.exec (denoPath false cur) (new_argv argv)], Outcome.returned ret) := by
  unfold main
  rw [selfPathDiagnostics_posix env hw, resolveSelf_posix env hw]
  cases env.canonical with
  | none => rfl
  | some cur =>
    simp only [hw, Bool.false_and, List.nil_append]
    cases env.fs_exists (denoPath false cur) with
    | none => rfl
    | some b =>
      cases b with
      | false => rfl
      | true =>
        simp only [launch, hw]
        cases env.malloc (argv.length + 4) with
        | false => simp
        | true =>
          cases env.execv (denoPath false cur) (new_argv argv) <;> simp

/-- The function `main` on the branch with `_WIN32`. -/
theorem main_win (env : Env) (argv : List String) (hw : env.win32 = true) :
    main env argv =
      match env.fs_exists (denoPath true env.buffer) with
      | none =>
        (selfPathDiagnostics env ++ [Event.fsExists (denoPath true env.buffer)],
          Outcome.terminated)
      | some false =>
        (selfPathDiagnostics env ++ [Event.fsExists (denoPath true env.buffer),
          Event.stderr "Failed to find deno executable"], Outcome.returned 1)
      | some true =>
        if env.malloc (argv.length + 4) = false then
          (selfPathDiagnostics env ++ [Event.fsExists (denoPath true env.buffer),
            Event.malloc (argv.length + 4), Event.stderr "Failed to allocate memory"],
            Outcome.returned 1)
        else
          match argv[0]? with
          | none =>
            (selfPathDiagnostics env ++ [Event.fsExists (denoPath true env.buffer),
              Event.malloc (argv.length + 4)], Outcome.undefined)
          | some argv0 =>
            (selfPathDiagnostics env ++ [Event.fsExists (denoPath true env.buffer),
              Event.malloc (argv.length + 4),
              Event.spawn (denoPath true env.buffer) (wargv env argv0 argv)],
              Outcome.returned (env._wspawnv (denoPath true env.buffer) (wargv env argv0 argv))) := by
  unfold main
  rw [resolveSelf_win env hw]
  simp only [hw, Bool.and_self]
  cases env.fs_exists (denoPath true env.buffer) with
  | none => rfl
  | some b =>
    cases b with
    | false => rfl
    | true =>
      simp only [launch, hw]
      cases env.malloc (argv.length + 4) with
      | false => simp
      | true =>
        cases argv[0]? <;> simp

/-- Whenever `execv` is called, the trace and the outcome are these. -/
theorem main_exec_inv (env : Env) (argv : List String) (p : Path) (v : List (Slot String))
    (h : Event.exec p v ∈ (main env argv).1) :
    env.win32 = false ∧ (∃ cur, resolveSelf env = some cur ∧ p = denoPath false cur) ∧
      v = new_argv argv ∧
      (main env argv).1 = [Event.fsExists p, Event.malloc (argv.length + 4), Event.exec p v] ∧
      (main env argv).2 = (match env.execv p v with
        | none => Outcome.replaced
        | some ret => Outcome.returned ret) := by
  cases hw : env.win32 with
  | true =>
    exfalso
    rw [main_win env argv hw] at h
    have hd : Event.exec p v ∉ selfPathDiagnostics env := fun hmem => by
      have := selfPathDiagnostics_stderr env _ hmem
      cases this
    cases hex : env.fs_exists (denoPath true env.buffer) with
    | none => simp [hex, hd] at h
    | some b =>
      cases b with
      | false => simp [hex, hd] at h
      | true =>
        cases hm : env.malloc (argv.length + 4) with
        | false => simp [hex, hm, hd] at h
        | true =>
          cases ha : argv[0]? with
          | none => simp [hex, hm, ha, hd] at h
          | some a0 => simp [hex, hm, ha, hd] at h
  | false =>
    rw [main_posix env argv hw] at h ⊢
    rw [resolveSelf_posix env hw]
    cases hc : env.canonical with
    | none => simp [hc] at h
    | some cur =>
      simp only [hc] at h ⊢
      cases hex : env.fs_exists (denoPath false cur) with
      | none => simp [hex] at h
      | some b =>
        cases b with
        | false => simp [hex] at h
        | true =>
          simp only [hex] at h ⊢
          cases hm : env.malloc (argv.length + 4) with
          | false => simp [hm] at h
          | true =>
            simp only [hm] at h ⊢
            cases hx : env.execv (denoPath false cur) (new_argv argv) with
            | none =>
              simp [hx] at h
              obtain ⟨rfl, rfl⟩ := h
              simp [hx]
            | some ret =>
              simp [hx] at h
              obtain ⟨rfl, rfl⟩ := h
              simp [hx]

/-- Whenever `_wspawnv` is called, the trace and the outcome are these. -/
theorem main_spawn_inv (env : Env) (argv : List String) (p : Path) (w : List (Slot WStr))
    (h : Event.spawn p w ∈ (main env argv).1) :
    env.win32 = true ∧ resolveSelf env = some env.buffer ∧ p = denoPath true env.buffer ∧
      (∃ argv0, argv[0]? = some argv0 ∧ w = wargv env argv0 argv) ∧
      (main env argv).1 = selfPathDiagnostics env ++
        [Event.fsExists p, Event.malloc (argv.length + 4), Event.spawn p w] ∧
      (main env argv).2 = Outcome.returned (env._wspawnv p w) := by
  cases hw : env.win32 with
  | false =>
    exfalso
    rw [main_posix env argv hw] at h
    cases hc : env.canonical with
    | none => simp [hc] at h
    | some cur =>
      cases hex : env.fs_exists (denoPath false cur) with
      | none => simp [hc, hex] at h
      | some b =>
        cases b with
        | false => simp [hc, hex] at h
        | true =>
          cases hm : env.malloc (argv.length + 4) with
          | false => simp [hc, hex, hm] at h
          | true =>
            cases hx : env.execv (denoPath false cur) (new_argv argv) <;>
              simp [hc, hex, hm, hx] at h
  | true =>
    rw [main_win env argv hw] at h ⊢
    rw [resolveSelf_win env hw]
    have hd : Event.spawn p w ∉ selfPathDiagnostics env := fun hmem => by
      have := selfPathDiagnostics_stderr env _ hmem
      cases this
    cases hex : env.fs_exists (denoPath true env.buffer) with
    | none => simp [hex, hd] at h
    | some b =>
      cases b with
      | false => simp [hex, hd] at h
      | true =>
        cases hm : env.malloc (argv.length + 4) with
        | false => simp [hex, hm, hd] at h
        | true =>
          cases ha : argv[0]? with
          | none => simp [hex, hm, ha, hd] at h
          | some a0 =>
            simp [hex, hm, ha, hd] at h
            obtain ⟨rfl, rfl⟩ := h
            simp [hex, hm, ha]

/-! ## The derived target path -/

theorem append_of_no_empty (q : Path) (hq : ∀ x ∈ q.elems, x ≠ "") (name : String) :
    q.append name = { root := q.root, elems := q.elems ++ [name] } := by
  unfold Path.append Path.has_filename Path.filename
  rcases List.eq_nil_or_concat q.elems with hnil | ⟨l, a, hl⟩
  · simp [hnil]
  · have ha : a ≠ "" := hq a (by simp [hl])
    simp [hl, ha]

theorem parent_path_no_empty (self : Path) (h : self.WellFormed) :
    ∀ x ∈ self.parent_path.elems, x ≠ "" := by
  unfold Path.parent_path
  cases he : self.elems with
  | nil => simp [he]
  | cons e es =>
    simp only
    rw [← he]
    exact h

theorem parent_path_of_append (q : Path) (name : String) :
    ({ root := q.root, elems := q.elems ++ [name] } : Path).parent_path = q := by
  unfold Path.parent_path
  cases q with
  | mk root elems =>
    cases he : elems ++ [name] with
    | nil => simp at he
    | cons e es =>
      simp only
      rw [← he]
      simp

theorem parent_path_append (self : Path) (h : self.WellFormed) (name : String) :
    (self.parent_path.append name).root = self.parent_path.root ∧
      (self.parent_path.append name).elems = self.parent_path.elems ++ [name] ∧
      (self.parent_path.append name).parent_path = self.parent_path := by
  rw [append_of_no_empty _ (parent_path_no_empty self h) name]
  exact ⟨rfl, rfl, parent_path_of_append _ _⟩

theorem parent_path_root (self : Path) : self.parent_path.root = self.root := by
  unfold Path.parent_path
  cases self.elems <;> rfl

theorem replace_extension_deno (q : Path) :
    ({ root := q.root, elems := q.elems ++ ["deno"] } : Path).replace_extension ".exe"
      = { root := q.root, elems := q.elems ++ ["deno.exe"] } := by
  have h : stripExtension "deno".data = "deno".data := by decide
  have hs : String.mk ("deno".data ++ ".exe".data) = "deno.exe" := by decide
  simp [Path.replace_extension, Path.filename, h, hs]

theorem denoPath_posix_eq (self : Path) (h : self.WellFormed) :
    denoPath false self =
      { root := self.parent_path.root, elems := self.parent_path.elems ++ ["deno"] } := by
  simp [denoPath, append_of_no_empty _ (parent_path_no_empty self h)]

theorem denoPath_win_eq (self : Path) (h : self.WellFormed) :
    denoPath true self =
      { root := self.parent_path.root, elems := self.parent_path.elems ++ ["deno.exe"] } := by
  simp only [denoPath, append_of_no_empty _ (parent_path_no_empty self h), if_true]
  exact replace_extension_deno self.parent_path

/-- Every path whose existence `main` checks is the derived target path. -/
theorem main_fsExists_inv (env : Env) (argv : List String) (p : Path)
    (h : Event.fsExists p ∈ (main env argv).1) :
    ∃ cur, resolveSelf env = some cur ∧ p = denoPath env.win32 cur := by
  have hd : Event.fsExists p ∉ selfPathDiagnostics env := fun hmem => by
    have := selfPathDiagnostics_stderr env _ hmem
    cases this
  cases hw : env.win32 with
  | false =>
    rw [main_posix env argv hw] at h
    rw [resolveSelf_posix env hw]
    cases hc : env.canonical with
    | none => simp [hc] at h
    | some cur =>
      refine ⟨cur, rfl, ?_⟩
      cases hex : env.fs_exists (denoPath false cur) with
      | none => simpa [hc, hex] using h
      | some b =>
        cases b with
        | false => simpa [hc, hex] using h
        | true =>
          cases hm : env.malloc (argv.length + 4) with
          | false => simpa [hc, hex, hm] using h
          | true =>
            cases hx : env.execv (denoPath false cur) (new_argv argv) <;>
              simpa [hc, hex, hm, hx] using h
  | true =>
    rw [main_win env argv hw] at h
    rw [resolveSelf_win env hw]
    refine ⟨env.buffer, rfl, ?_⟩
    cases hex : env.fs_exists (denoPath true env.buffer) with
    | none => simpa [hex, hd] using h
    | some b =>
      cases b with
      | false => simpa [hex, hd] using h
      | true =>
        cases hm : env.malloc (argv.length + 4) with
        | false => simpa [hex, hm, hd] using h
        | true =>
          cases ha : argv[0]? <;> simpa [hex, hm, ha, hd] using h

/-- The vector handed to `execv`, as a list. -/
theorem exec_vector_eq (env : Env) (prog : String) (args : List String) (p : Path)
    (v : List (Slot String)) (h : Event.exec p v ∈ (main env (prog :: args)).1) :
    v = (prog :: "run" :: "-A" :: "build.ts" :: args).map Slot.ptr ++ [Slot.null] := by
  obtain ⟨_, _, hv, _, _⟩ := main_exec_inv env (prog :: args) p v h
  rw [new_argv_cons] at hv
  subst hv
  simp

/-- The vector handed to `_wspawnv`, as a list. -/
theorem spawn_vector_eq (env : Env) (prog : String) (args : List String) (p : Path)
    (w : List (Slot WStr)) (h : Event.spawn p w ∈ (main env (prog :: args)).1) :
    w = (prog :: "run" :: "-A" :: "build.ts" :: args).map
          (fun s => Slot.ofOption (utf8_to_wchar env s)) ++ [Slot.null] := by
  obtain ⟨_, _, _, ⟨a0, ha0, hw⟩, _, _⟩ := main_spawn_inv env (prog :: args) p w h
  simp only [List.getElem?_cons_zero, Option.some.injEq] at ha0
  subst ha0
  rw [wargv_cons] at hw
  subst hw
  simp

theorem getElem?_map_append {α β : Type} (f : α → β) (l : List α) (x : β) (k : Nat) (a : α)
    (h : l[k]? = some a) : (l.map f ++ [x])[k]? = some (f a) := by
  have hk : k < l.length := by
    by_contra hcon
    rw [List.getElem?_eq_none (by omega)] at h
    cases h
  rw [List.getElem?_append_left (by simpa using hk)]
  simp [h]

theorem getElem?_map_append_length {α β : Type} (f : α → β) (l : List α) (x : β) (n : Nat)
    (h : l.length = n) : (l.map f ++ [x])[n]? = some x := by
  subst h
  rw [List.getElem?_append_right (by simp)]
  simp

/-- With `_WIN32`, a failing `GetModuleFileNameW` does not end `main`: the
diagnostic is written and the existence check of the path derived from
`buffer` follows. -/
theorem self_path_failure_continues (env : Env) (argv : List String)
    (hw : env.win32 = true) (hg : env.GetModuleFileNameW = 0) :
    [Event.stderr (pathErrorLine env.GetLastError),
      Event.fsExists (denoPath true env.buffer)] <+: (main env argv).1 := by
  have hd : selfPathDiagnostics env = [Event.stderr (pathErrorLine env.GetLastError)] := by
    simp [selfPathDiagnostics, hw, hg]
  rw [main_win env argv hw, hd]
  cases hex : env.fs_exists (denoPath true env.buffer) with
  | none => simp
  | some b =>
    cases b with
    | false => simp [List.prefix_iff_eq_take]
    | true =>
      cases hm : env.malloc (argv.length + 4) with
      | false => simp [List.prefix_iff_eq_take]
      | true => cases ha : argv[0]? <;> simp [List.prefix_iff_eq_take]

/-- Without `_WIN32`, a throwing `fs::canonical` ends the process through
`std::terminate` before anything else happens. -/
theorem canonical_failure_terminates (env : Env) (argv : List String)
    (hw : env.win32 = false) (hc : env.canonical = none) :
    main env argv = ([], Outcome.terminated) := by
  rw [main_posix env argv hw, hc]

/-! ## Claims -/

/-- C1: for an original argument vector `[prog, a1, ..., an]`, the array that
`main` hands to `execv` has exactly `n + 4` entries before its null terminator
(so at least 4), holds `"run"`, `"-A"`, `"build.ts"` at indices 1, 2, 3, and
holds `a_i` itself at index `i + 3` for every `i` in `1..n`. -/
theorem C1_execv_vector_layout (env : Env) (prog : String) (args : List String)
    (p : Path) (v : List (Slot String))
    (h : Event.exec p v ∈ (main env (prog :: args)).1) :
    (argsBeforeNull v).length = args.length + 4 ∧
      4 ≤ (argsBeforeNull v).length ∧
      v[args.length + 4]? = some Slot.null ∧
      v[1]? = some (Slot.ptr "run") ∧
      v[2]? = some (Slot.ptr "-A") ∧
      v[3]? = some (Slot.ptr "build.ts") ∧
      ∀ (i : Nat) (a : String), 1 ≤ i → (prog :: args)[i]? = some a →
        v[i + 3]? = some (Slot.ptr a) := by
  obtain ⟨_, _, hv, _, _⟩ := main_exec_inv env (prog :: args) p v h
  rw [new_argv_cons] at hv
  subst hv
  have hlen : (argsBeforeNull (Slot.ptr prog :: Slot.ptr "run" :: Slot.ptr "-A" ::
      Slot.ptr "build.ts" :: (args.map Slot.ptr ++ [Slot.null]))).length = args.length + 4 := by
    simp [argsBeforeNull, argsBeforeNull_map_ptr]
  refine ⟨hlen, by omega, ?_, by simp, by simp, by simp, ?_⟩
  · have : args.length + 4 = (args.length + 0) + 1 + 1 + 1 + 1 := by omega
    rw [this]
    simp [List.getElem?_append_right]
  · intro i a hi ha
    obtain ⟨j, rfl⟩ : ∃ j, i = j + 1 := ⟨i - 1, by omega⟩
    simp only [List.getElem?_cons_succ] at ha ⊢
    have hj : j < args.length := by
      by_contra hcon
      rw [List.getElem?_eq_none (by omega)] at ha
      cases ha
    rw [List.getElem?_append_left (by simpa using hj)]
    simp [ha]

/-- C1, at a concrete input: `nomake foo` on the POSIX system. -/
theorem C1_execv_vector_layout_witness :
    Event.exec (binDir "deno")
        [Slot.ptr "nomake", Slot.ptr "run", Slot.ptr "-A", Slot.ptr "build.ts",
          Slot.ptr "foo", Slot.null] ∈ (main posixEnv ["nomake", "foo"]).1 ∧
      (argsBeforeNull [Slot.ptr "nomake", Slot.ptr "run", Slot.ptr "-A",
        Slot.ptr "build.ts", Slot.ptr "foo", Slot.null]).length = 5 :=
  ⟨by decide, (C1_execv_vector_layout posixEnv "nomake" ["foo"] (binDir "deno") _
    (by decide)).1⟩

/-- C2, as stated, fails: on the POSIX system `nomake` alone is launched with
the vector `["nomake", "run", "-A", "build.ts"]`, whose entry 0 is the original
program name and not the target path `/usr/local/bin/deno`. -/
theorem C2_counterexample :
    Event.exec (binDir "deno")
        [Slot.ptr "nomake", Slot.ptr "run", Slot.ptr "-A", Slot.ptr "build.ts", Slot.null]
        ∈ (main posixEnv ["nomake"]).1 ∧
      denoPath false (binDir "nomake") = binDir "deno" ∧
      (binDir "deno").pathname = "/usr/local/bin/deno" ∧
      ¬ (∀ (p : Path) (v : List (Slot String)), Event.exec p v ∈ (main posixEnv ["nomake"]).1 →
          argsBeforeNull v = [p.pathname, "run", "-A", "build.ts"]) := by
  refine ⟨by decide, by decide, by decide, ?_⟩
  intro hall
  have h := hall (binDir "deno")
    [Slot.ptr "nomake", Slot.ptr "run", Slot.ptr "-A", Slot.ptr "build.ts", Slot.null]
    (by decide)
  revert h
  decide

/-- C2 (amended): for an original argument vector `[prog, a1, ..., an]`, the
vector `main` passes to `execv` is `[prog, "run", "-A", "build.ts", a1, ..., an]`
followed by a null pointer, and the one it passes to `_wspawnv` is the
`utf8_to_wchar` transcoding of the same entries: entry 0 is the original
`argv[0]`, while the derived target path is the separate path argument of the
launch call. -/
theorem C2_launch_vector_amended (env : Env) (prog : String) (args : List String) :
    (∀ (p : Path) (v : List (Slot String)), Event.exec p v ∈ (main env (prog :: args)).1 →
        (∃ cur, resolveSelf env = some cur ∧ p = denoPath false cur) ∧
        v = (prog :: "run" :: "-A" :: "build.ts" :: args).map Slot.ptr ++ [Slot.null] ∧
        argsBeforeNull v = prog :: "run" :: "-A" :: "build.ts" :: args) ∧
      (∀ (p : Path) (w : List (Slot WStr)), Event.spawn p w ∈ (main env (prog :: args)).1 →
        p = denoPath true env.buffer ∧
        w = (prog :: "run" :: "-A" :: "build.ts" :: args).map
              (fun s => Slot.ofOption (utf8_to_wchar env s)) ++ [Slot.null]) := by
  constructor
  · intro p v h
    obtain ⟨_, hp, hv, _, _⟩ := main_exec_inv env (prog :: args) p v h
    rw [new_argv_cons] at hv
    subst hv
    refine ⟨hp, by simp, ?_⟩
    simp [argsBeforeNull, argsBeforeNull_map_ptr]
  · intro p w h
    obtain ⟨_, _, hp, ⟨a0, ha0, hw⟩, _, _⟩ := main_spawn_inv env (prog :: args) p w h
    simp only [List.getElem?_cons_zero, Option.some.injEq] at ha0
    subst ha0
    rw [wargv_cons] at hw
    subst hw
    exact ⟨hp, by simp⟩

/-- C2 (amended), at a concrete input: `nomake` without arguments on the POSIX
system gives exactly `["nomake", "run", "-A", "build.ts"]`. -/
theorem C2_launch_vector_amended_witness :
    Event.exec (binDir "deno")
        [Slot.ptr "nomake", Slot.ptr "run", Slot.ptr "-A", Slot.ptr "build.ts", Slot.null]
        ∈ (main posixEnv ["nomake"]).1 ∧
      argsBeforeNull
        [Slot.ptr "nomake", Slot.ptr "run", Slot.ptr "-A", Slot.ptr "build.ts", Slot.null]
        = ["nomake", "run", "-A", "build.ts"] :=
  ⟨by decide, ((C2_launch_vector_amended posixEnv "nomake" []).1 (binDir "deno") _
    (by decide)).2.2⟩

theorem not_mem_selfPathDiagnostics (env : Env) (e : Event)
    (h : ∀ line, e ≠ Event.stderr line) : e ∉ selfPathDiagnostics env := by
  intro hmem
  exact h _ (selfPathDiagnostics_stderr env e hmem)

/-- C3: when the derived target path does not exist, `main` writes the
diagnostic to standard error and returns 1; it calls neither `execv` nor
`_wspawnv` and allocates no argument vector. -/
theorem C3_missing_target (env : Env) (argv : List String) (cur : Path)
    (hres : resolveSelf env = some cur)
    (hex : env.fs_exists (denoPath env.win32 cur) = some false) :
    main env argv =
        (selfPathDiagnostics env ++ [Event.fsExists (denoPath env.win32 cur),
          Event.stderr "Failed to find deno executable"], Outcome.returned 1) ∧
      (∀ (p : Path) (v : List (Slot String)), Event.exec p v ∉ (main env argv).1) ∧
      (∀ (p : Path) (w : List (Slot WStr)), Event.spawn p w ∉ (main env argv).1) ∧
      (∀ (n : Nat), Event.malloc n ∉ (main env argv).1) := by
  have hmain : main env argv =
      (selfPathDiagnostics env ++ [Event.fsExists (denoPath env.win32 cur),
        Event.stderr "Failed to find deno executable"], Outcome.returned 1) := by
    unfold main
    simp [hres, hex]
  refine ⟨hmain, ?_, ?_, ?_⟩
  · intro p v
    rw [hmain]
    simp [not_mem_selfPathDiagnostics env (Event.exec p v) (by intro l; simp)]
  · intro p w
    rw [hmain]
    simp [not_mem_selfPathDiagnostics env (Event.spawn p w) (by intro l; simp)]
  · intro n
    rw [hmain]
    simp [not_mem_selfPathDiagnostics env (Event.malloc n) (by intro l; simp)]

/-- C3, at a concrete input: the POSIX system without `deno`, run as
`nomake foo`. -/
theorem C3_missing_target_witness :
    main posixEnvNoDeno ["nomake", "foo"] =
      ([Event.fsExists (binDir "deno"), Event.stderr "Failed to find deno executable"],
        Outcome.returned 1) :=
  (C3_missing_target posixEnvNoDeno ["nomake", "foo"] (binDir "nomake")
    (by decide) (by decide)).1

/-- C4: once the launch call is reached, `main` returns exactly what the launch
call returns: the status given by `_wspawnv` on the spawn-and-wait path, the
value of a returning `execv` on the replace-image path. -/
theorem C4_returns_launch_value (env : Env) (argv : List String) :
    (∀ (p : Path) (w : List (Slot WStr)), Event.spawn p w ∈ (main env argv).1 →
        (main env argv).2 = Outcome.returned (env._wspawnv p w)) ∧
      (∀ (p : Path) (v : List (Slot String)) (ret : Int),
        Event.exec p v ∈ (main env argv).1 → env.execv p v = some ret →
        (main env argv).2 = Outcome.returned ret) ∧
      (∀ (prog : String) (args : List String), argv = prog :: args → env.win32 = true →
        env.fs_exists (denoPath true env.buffer) = some true →
        env.malloc (argv.length + 4) = true →
        Event.spawn (denoPath true env.buffer) (wargv env prog argv) ∈ (main env argv).1) ∧
      (∀ (cur : Path), env.win32 = false → env.canonical = some cur →
        env.fs_exists (denoPath false cur) = some true →
        env.malloc (argv.length + 4) = true →
        Event.exec (denoPath false cur) (new_argv argv) ∈ (main env argv).1) := by
  refine ⟨?_, ?_, ?_, ?_⟩
  · intro p w h
    exact (main_spawn_inv env argv p w h).2.2.2.2.2
  · intro p v ret h hx
    have := (main_exec_inv env argv p v h).2.2.2.2
    rw [this, hx]
  · intro prog args ha hw hex hm
    rw [main_win env argv hw]
    subst ha
    simp only [List.length_cons] at hm
    simp [hex, hm]
  · intro cur hw hc hex hm
    rw [main_posix env argv hw]
    cases hx : env.execv (denoPath false cur) (new_argv argv) <;> simp [hc, hex, hm, hx]

/-- C4, at a concrete input: on the Windows system the child exits with 42 and
`main` returns 42; on the POSIX system `execv` returns `-1` and so does
`main`. -/
theorem C4_returns_launch_value_witness :
    (main winEnv ["nomake", "foo"]).2 = Outcome.returned 42 ∧
      (main posixEnv ["nomake", "foo"]).2 = Outcome.returned (-1) :=
  ⟨(C4_returns_launch_value winEnv ["nomake", "foo"]).1 (toolsDir "deno.exe")
      (wargv winEnv "nomake" ["nomake", "foo"]) (by decide),
    (C4_returns_launch_value posixEnv ["nomake", "foo"]).2.1 (binDir "deno")
      (new_argv ["nomake", "foo"]) (-1) (by decide) (by decide)⟩

/-- C5, at the failing inputs: on the Windows system `GetModuleFileNameW`
returns 0 and `main` writes the diagnostic but goes on, derives `deno.exe` from
the unfilled buffer, checks it, launches it and returns the child's status 42;
on the POSIX system a throwing `fs::canonical` ends the process through
`std::terminate`, with no `return 1`. -/
theorem C5_failing_input :
    winEnvNoSelf.GetModuleFileNameW = 0 ∧
      main winEnvNoSelf ["nomake"] =
        ([Event.stderr "Failed to get current executable path, error code: 5",
          Event.fsExists { root := "", elems := ["deno.exe"] },
          Event.malloc 5,
          Event.spawn { root := "", elems := ["deno.exe"] }
            [Slot.ptr (bmpWide "nomake"), Slot.ptr (bmpWide "run"), Slot.ptr (bmpWide "-A"),
              Slot.ptr (bmpWide "build.ts"), Slot.null]],
          Outcome.returned 42) ∧
      posixEnvNoSelf.canonical = none ∧
      main posixEnvNoSelf ["nomake"] = ([], Outcome.terminated) := by
  decide

/-- C6, as stated, fails: on the POSIX system `execv` returns `-1`, and on the
Windows system `_wspawnv` returns `-1`; in both `main` returns `-1`, not 1, and
nothing is written to standard error. -/
theorem C6_counterexample :
    posixEnv.execv (binDir "deno") (new_argv ["nomake"]) = some (-1) ∧
      main posixEnv ["nomake"] =
        ([Event.fsExists (binDir "deno"), Event.malloc 5,
          Event.exec (binDir "deno") (new_argv ["nomake"])], Outcome.returned (-1)) ∧
      main winEnvNoSpawn ["nomake"] =
        ([Event.fsExists (toolsDir "deno.exe"), Event.malloc 5,
          Event.spawn (toolsDir "deno.exe") (wargv winEnvNoSpawn "nomake" ["nomake"])],
          Outcome.returned (-1)) ∧
      ¬ ((main posixEnv ["nomake"]).2 = Outcome.returned 1) ∧
      ¬ (∃ line, Event.stderr line ∈ (main posixEnv ["nomake"]).1) ∧
      ¬ ((main winEnvNoSpawn ["nomake"]).2 = Outcome.returned 1) ∧
      ¬ (∃ line, Event.stderr line ∈ (main winEnvNoSpawn ["nomake"]).1) := by
  have hp : main posixEnv ["nomake"] =
      ([Event.fsExists (binDir "deno"), Event.malloc 5,
        Event.exec (binDir "deno") (new_argv ["nomake"])], Outcome.returned (-1)) := by decide
  have hw : main winEnvNoSpawn ["nomake"] =
      ([Event.fsExists (toolsDir "deno.exe"), Event.malloc 5,
        Event.spawn (toolsDir "deno.exe") (wargv winEnvNoSpawn "nomake" ["nomake"])],
        Outcome.returned (-1)) := by decide
  refine ⟨by decide, hp, hw, by decide, ?_, by decide, ?_⟩
  · rw [hp]; simp
  · rw [hw]; simp

/-- C6 (amended): when `execv` returns, or `_wspawnv` has returned, the launch
is the last event of `main`: no diagnostic is written for it (the only line
that can be on standard error is the earlier self-path one) and `main` returns
the value the launch call returned, which is `-1` for a failed launch. -/
theorem C6_launch_failure_amended (env : Env) (argv : List String) :
    (∀ (p : Path) (v : List (Slot String)) (ret : Int),
        Event.exec p v ∈ (main env argv).1 → env.execv p v = some ret →
        main env argv =
          ([Event.fsExists p, Event.malloc (argv.length + 4), Event.exec p v],
            Outcome.returned ret)) ∧
      (∀ (p : Path) (w : List (Slot WStr)), Event.spawn p w ∈ (main env argv).1 →
        main env argv =
          (selfPathDiagnostics env ++
            [Event.fsExists p, Event.malloc (argv.length + 4), Event.spawn p w],
            Outcome.returned (env._wspawnv p w)) ∧
        ∀ line, Event.stderr line ∈ (main env argv).1 →
          env.GetModuleFileNameW = 0 ∧ line = pathErrorLine env.GetLastError) := by
  constructor
  · intro p v ret h hx
    obtain ⟨_, _, _, h1, h2⟩ := main_exec_inv env argv p v h
    rw [hx] at h2
    exact Prod.ext h1 h2
  · intro p w h
    obtain ⟨_, _, _, _, h1, h2⟩ := main_spawn_inv env argv p w h
    refine ⟨Prod.ext h1 h2, ?_⟩
    intro line hl
    rw [h1] at hl
    simp only [List.mem_append, List.mem_cons, List.mem_singleton, List.not_mem_nil,
      or_false] at hl
    rcases hl with hl | hl | hl | hl
    · unfold selfPathDiagnostics at hl
      split at hl
      · rename_i hc
        simp only [List.mem_singleton, Event.stderr.injEq] at hl
        exact ⟨hc.2, hl⟩
      · simp at hl
    · cases hl
    · cases hl
    · cases hl

/-- C6 (amended), at a concrete input: a failing `execv` on the POSIX system. -/
theorem C6_launch_failure_amended_witness :
    main posixEnv ["nomake"] =
      ([Event.fsExists (binDir "deno"), Event.malloc 5,
        Event.exec (binDir "deno") (new_argv ["nomake"])], Outcome.returned (-1)) :=
  (C6_launch_failure_amended posixEnv ["nomake"]).1 (binDir "deno") (new_argv ["nomake"]) (-1)
    (by decide) (by decide)

/-- C7: the derived target path depends on the self path alone: it is the
parent directory of the self path joined with `deno` (no suffix) without
`_WIN32`, and with the extension replaced by `.exe` with `_WIN32`; so its
filename is `deno` or `deno.exe`, its parent directory is the parent directory
of the running executable, equal self paths give equal targets, and every path
that `main` checks or launches is this one. -/
theorem C7_target_path_derivation (self : Path) (h : self.WellFormed) :
    denoPath false self = self.parent_path.append "deno" ∧
      denoPath true self = (self.parent_path.append "deno").replace_extension ".exe" ∧
      (denoPath false self).elems = self.parent_path.elems ++ ["deno"] ∧
      (denoPath true self).elems = self.parent_path.elems ++ ["deno.exe"] ∧
      (denoPath false self).filename = "deno" ∧
      (denoPath true self).filename = "deno.exe" ∧
      (∀ windows : Bool, (denoPath windows self).root = self.root ∧
        (denoPath windows self).parent_path = self.parent_path) ∧
      (∀ (windows : Bool) (self2 : Path), self2 = self →
        denoPath windows self2 = denoPath windows self) ∧
      (∀ (env : Env) (argv : List String) (p : Path), resolveSelf env = some self →
        (Event.fsExists p ∈ (main env argv).1 ∨
          (∃ v, Event.exec p v ∈ (main env argv).1) ∨
          (∃ w, Event.spawn p w ∈ (main env argv).1)) →
        p = denoPath env.win32 self) := by
  have hp := denoPath_posix_eq self h
  have hw := denoPath_win_eq self h
  refine ⟨rfl, rfl, by rw [hp], by rw [hw], by rw [hp]; simp [Path.filename],
    by rw [hw]; simp [Path.filename], ?_, ?_, ?_⟩
  · intro windows
    cases windows with
    | false =>
      rw [hp]
      exact ⟨parent_path_root self, parent_path_of_append self.parent_path "deno"⟩
    | true =>
      rw [hw]
      exact ⟨parent_path_root self, parent_path_of_append self.parent_path "deno.exe"⟩
  · intro windows self2 h2
    rw [h2]
  · intro env argv p hres hev
    rcases hev with hev | ⟨v, hev⟩ | ⟨w, hev⟩
    · obtain ⟨cur, hc, hpc⟩ := main_fsExists_inv env argv p hev
      rw [hres] at hc
      cases hc
      exact hpc
    · obtain ⟨hw32, ⟨cur, hc, hpc⟩, _⟩ := main_exec_inv env argv p v hev
      rw [hres] at hc
      cases hc
      rw [hw32]
      exact hpc
    · obtain ⟨hw32, hc, hpc, _⟩ := main_spawn_inv env argv p w hev
      rw [hres] at hc
      cases hc
      rw [hw32]
      exact hpc

/-- C7, at concrete inputs: `/usr/local/bin/nomake` gives `/usr/local/bin/deno`,
and `C:\tools\nomake.exe` gives `C:\tools\deno.exe`. -/
theorem C7_target_path_derivation_witness :
    (binDir "nomake").WellFormed ∧
      (denoPath false (binDir "nomake")).elems = ["usr", "local", "bin", "deno"] ∧
      (toolsDir "nomake.exe").WellFormed ∧
      (denoPath true (toolsDir "nomake.exe")).elems = ["tools", "deno.exe"] :=
  have h1 : (binDir "nomake").WellFormed := by
    intro e he
    simp [binDir] at he
    rcases he with rfl | rfl | rfl <;> decide
  have h2 : (toolsDir "nomake.exe").WellFormed := by
    intro e he
    simp [toolsDir] at he
    subst he
    decide
  ⟨h1, (C7_target_path_derivation (binDir "nomake") h1).2.2.1,
    h2, (C7_target_path_derivation (toolsDir "nomake.exe") h2).2.2.2.1⟩

/-- C8: `utf8_to_wchar` of the empty string makes no call of the OS conversion
routine and returns a buffer of exactly one wide character, the terminator;
for a non-empty string it returns null exactly when the length query reports
zero or the second conversion call reports zero. -/
theorem C8_utf8_to_wchar (env : Env) :
    utf8_to_wchar_traced env "" = ([], some [0]) ∧
      utf8_to_wchar env "" = some [0] ∧
      ∀ str : String, str ≠ "" →
        (utf8_to_wchar env str = none ↔
          env.mbQuery str = 0 ∨ (env.mbFill str (env.mbQuery str)).written = 0) := by
  refine ⟨by simp [utf8_to_wchar_traced], by simp [utf8_to_wchar, utf8_to_wchar_traced], ?_⟩
  intro str hne
  unfold utf8_to_wchar utf8_to_wchar_traced
  simp only [hne, if_false]
  by_cases hq : env.mbQuery str = 0
  · simp [hq]
  · by_cases hf : (env.mbFill str (env.mbQuery str)).written = 0
    · simp [hq, hf]
    · simp [hq, hf]

/-- C8, at concrete inputs: the empty string converts although the OS routine
of this system would report zero for it, the string `"a"` fails to convert
because the second conversion call reports zero. -/
theorem C8_utf8_to_wchar_witness :
    posixEnv.mbQuery "" = 0 ∧ utf8_to_wchar posixEnv "" = some [0] ∧
      "a" ≠ "" ∧
      (winEnvBadConv.mbFill "a" (winEnvBadConv.mbQuery "a")).written = 0 ∧
      utf8_to_wchar winEnvBadConv "a" = none :=
  ⟨by decide, (C8_utf8_to_wchar posixEnv).2.1, by decide, by decide,
    ((C8_utf8_to_wchar winEnvBadConv).2.2 "a" (by decide)).2 (Or.inr (by decide))⟩

/-- C9, at the failing input: on the Windows system where the conversion of
`"a"` fails, `nomake a b` writes nothing to standard error and calls `_wspawnv`
with a vector whose cell 4 is null, so that the child receives neither `a` nor
`b`; `main` returns the child's status 42, not 1. -/
theorem C9_failing_input :
    utf8_to_wchar winEnvBadConv "a" = none ∧
      main winEnvBadConv ["nomake", "a", "b"] =
        ([Event.fsExists (toolsDir "deno.exe"), Event.malloc 7,
          Event.spawn (toolsDir "deno.exe")
            [Slot.ptr (bmpWide "nomake"), Slot.ptr (bmpWide "run"), Slot.ptr (bmpWide "-A"),
              Slot.ptr (bmpWide "build.ts"), Slot.null, Slot.ptr (bmpWide "b"), Slot.null]],
          Outcome.returned 42) ∧
      argsBeforeNull
          [Slot.ptr (bmpWide "nomake"), Slot.ptr (bmpWide "run"), Slot.ptr (bmpWide "-A"),
            Slot.ptr (bmpWide "build.ts"), Slot.null, Slot.ptr (bmpWide "b"), Slot.null]
        = [bmpWide "nomake", bmpWide "run", bmpWide "-A", bmpWide "build.ts"] := by
  decide

/-- The part of C9 that holds: when the allocation of the argument vector
fails, `main` writes the diagnostic, returns 1 and launches nothing. -/
theorem vector_allocation_failure (env : Env) (argv : List String) (cur : Path)
    (hres : resolveSelf env = some cur)
    (hex : env.fs_exists (denoPath env.win32 cur) = some true)
    (hm : env.malloc (argv.length + 4) = false) :
    main env argv =
      (selfPathDiagnostics env ++ [Event.fsExists (denoPath env.win32 cur),
        Event.malloc (argv.length + 4), Event.stderr "Failed to allocate memory"],
        Outcome.returned 1) := by
  cases hw : env.win32 with
  | false =>
    rw [resolveSelf_posix env hw] at hres
    rw [hw] at hex
    rw [main_posix env argv hw, selfPathDiagnostics_posix env hw]
    simp [hres, hex, hm]
  | true =>
    rw [resolveSelf_win env hw] at hres
    cases hres
    rw [hw] at hex
    rw [main_win env argv hw]
    simp [hex, hm]

/-- C10: for an original argument vector `[prog, a1, ..., an]`, the wide vector
passed to `_wspawnv` is the cell-by-cell `utf8_to_wchar` transcoding of the
vector passed to `execv`: both have `n + 5` cells, the last one null, cell `k`
of the wide vector is `utf8_to_wchar` of cell `k` of the narrow one for every
`k` in `0..n+3`, and each user argument `a_i` sits in the one cell `i + 3` of
both. -/
theorem C10_wide_vector_is_transcoding (envW envP : Env) (prog : String) (args : List String)
    (pw : Path) (w : List (Slot WStr)) (pp : Path) (v : List (Slot String))
    (hs : Event.spawn pw w ∈ (main envW (prog :: args)).1)
    (he : Event.exec pp v ∈ (main envP (prog :: args)).1) :
    w.length = args.length + 5 ∧ v.length = args.length + 5 ∧
      w[args.length + 4]? = some Slot.null ∧ v[args.length + 4]? = some Slot.null ∧
      (∀ k : Nat, k ≤ args.length + 3 →
        ∃ s : String, v[k]? = some (Slot.ptr s) ∧
          w[k]? = some (Slot.ofOption (utf8_to_wchar envW s))) ∧
      (∀ (i : Nat) (a : String), 1 ≤ i → (prog :: args)[i]? = some a →
        v[i + 3]? = some (Slot.ptr a) ∧
          w[i + 3]? = some (Slot.ofOption (utf8_to_wchar envW a))) := by
  have hv := exec_vector_eq envP prog args pp v he
  have hw := spawn_vector_eq envW prog args pw w hs
  subst hv hw
  have hlen : (prog :: "run" :: "-A" :: "build.ts" :: args).length = args.length + 4 := by
    simp
  refine ⟨by simp, by simp, getElem?_map_append_length _ _ _ _ hlen,
    getElem?_map_append_length _ _ _ _ hlen, ?_, ?_⟩
  · intro k hk
    have hk2 : k < (prog :: "run" :: "-A" :: "build.ts" :: args).length := by
      rw [hlen]; omega
    refine ⟨(prog :: "run" :: "-A" :: "build.ts" :: args)[k], ?_, ?_⟩
    · exact getElem?_map_append _ _ _ _ _ (List.getElem?_eq_getElem hk2)
    · exact getElem?_map_append _ _ _ _ _ (List.getElem?_eq_getElem hk2)
  · intro i a hi ha
    obtain ⟨j, rfl⟩ : ∃ j, i = j + 1 := ⟨i - 1, by omega⟩
    have hL : (prog :: "run" :: "-A" :: "build.ts" :: args)[j + 1 + 3]? = some a := by
      simpa using ha
    exact ⟨getElem?_map_append _ _ _ _ _ hL, getElem?_map_append _ _ _ _ _ hL⟩

/-- C10, at a concrete input: the argument `héllo world` sits in cell 4 of the
vector on the POSIX system and, transcoded, in cell 4 of the vector on the
Windows system. -/
theorem C10_wide_vector_is_transcoding_witness :
    Event.spawn (toolsDir "deno.exe") (wargv winEnv "nomake" ["nomake", "héllo world"])
        ∈ (main winEnv ["nomake", "héllo world"]).1 ∧
      Event.exec (binDir "deno") (new_argv ["nomake", "héllo world"])
        ∈ (main posixEnv ["nomake", "héllo world"]).1 ∧
      (new_argv ["nomake", "héllo world"])[1 + 3]? = some (Slot.ptr "héllo world") ∧
      (wargv winEnv "nomake" ["nomake", "héllo world"])[1 + 3]?
        = some (Slot.ofOption (utf8_to_wchar winEnv "héllo world")) :=
  have hs : Event.spawn (toolsDir "deno.exe") (wargv winEnv "nomake" ["nomake", "héllo world"])
      ∈ (main winEnv ["nomake", "héllo world"]).1 := by decide
  have he : Event.exec (binDir "deno") (new_argv ["nomake", "héllo world"])
      ∈ (main posixEnv ["nomake", "héllo world"]).1 := by decide
  ⟨hs, he, (C10_wide_vector_is_transcoding winEnv posixEnv "nomake" ["héllo world"]
    (toolsDir "deno.exe") _ (binDir "deno") _ hs he).2.2.2.2.2 1 "héllo world"
    (le_refl 1) (by decide)⟩

end Nomake
